import Mathlib

/-!
Shallow embedding of the VirtualBox CPI extension (`src/lib.rs` of
OmniCloudOrg/cpi_virtualbox) and verification of the frozen claims about it.

Strings are modelled as lists of characters (`Str`); the external
VBoxManage tool is modelled as an oracle mapping an argument vector to
either a spawn failure or a captured exit status / stdout / stderr triple.
JSON values produced by the extension are modelled by the inductive `JVal`,
with objects as association lists (insertion order; `insertField` replaces
an existing key in place, mirroring map insertion).
-/

set_option maxHeartbeats 1000000

abbrev Str := List Char

/-- Rust `str::trim_end` restricted to the whitespace class of `Char.isWhitespace`. -/
def trimEndStr (s : Str) : Str := (s.reverse.dropWhile Char.isWhitespace).reverse

/-- Rust `str::trim`. -/
def trimStr (s : Str) : Str := trimEndStr (s.dropWhile Char.isWhitespace)

/-- Rust `str::find(char)`: index of the first occurrence of `c`. -/
def findCharIdx (c : Char) : Str → Option Nat
  | [] => none
  | x :: xs => if x = c then some 0 else (findCharIdx c xs).map (· + 1)

/-- Rust `str::rfind(char)`: index of the last occurrence of `c`. -/
def rfindCharIdx (c : Char) (s : Str) : Option Nat :=
  (findCharIdx c s.reverse).map (fun i => s.length - 1 - i)

/-- Rust slicing `s[a..b]`. -/
def sliceStr (s : Str) (a b : Nat) : Str := (s.drop a).take (b - a)

/-- Rust `str::split(char)`: split on every occurrence, `n` separators give `n+1` pieces. -/
def splitOnChar (c : Char) : Str → List Str
  | [] => [[]]
  | x :: xs =>
    if x = c then [] :: splitOnChar c xs
    else
      match splitOnChar c xs with
      | [] => [[x]]
      | h :: t => (x :: h) :: t

/-- Helper of `linesOf`: Rust `str::lines` strips one trailing carriage return per line. -/
def stripCR (s : Str) : Str := if s.getLast? = some '\r' then s.dropLast else s

/-- Rust `str::lines`: split on newline, a final trailing line terminator produces no extra line. -/
def linesOf (s : Str) : List Str :=
  let parts := splitOnChar '\n' s
  let parts2 := if parts.getLast? = some [] then parts.dropLast else parts
  parts2.map stripCR

/-- Rust `str::starts_with(&str)` (first argument is the pattern). -/
def startsWithStr : Str → Str → Bool
  | [], _ => true
  | _ :: _, [] => false
  | p :: ps, x :: xs => decide (p = x) && startsWithStr ps xs

/-- Rust `str::contains(&str)` (first argument is the pattern). -/
def containsStr (pat : Str) : Str → Bool
  | [] => pat.isEmpty
  | x :: xs => startsWithStr pat (x :: xs) || containsStr pat xs

/-- Index of the first occurrence of a substring pattern, if any. -/
def findSubIdx (pat : Str) : Str → Option Nat
  | [] => if pat.isEmpty then some 0 else none
  | x :: xs => if startsWithStr pat (x :: xs) then some 0 else (findSubIdx pat xs).map (· + 1)

theorem startsWithStr_length {p s : Str} (h : startsWithStr p s = true) : p.length ≤ s.length := by
  induction p generalizing s with
  | nil => simp
  | cons a ps ih =>
    cases s with
    | nil => simp [startsWithStr] at h
    | cons x xs =>
      simp only [startsWithStr, Bool.and_eq_true] at h
      simpa using Nat.succ_le_succ (ih h.2)

theorem findSubIdx_lt {pat s : Str} {i : Nat} (hp : pat ≠ []) (h : findSubIdx pat s = some i) :
    i < s.length := by
  induction s generalizing i with
  | nil =>
    simp only [findSubIdx, List.isEmpty_iff] at h
    rw [if_neg hp] at h
    cases h
  | cons x xs ih =>
    simp only [findSubIdx] at h
    by_cases hs : startsWithStr pat (x :: xs) = true
    · rw [if_pos hs] at h
      cases h
      simp
    · rw [if_neg hs] at h
      cases hfind : findSubIdx pat xs with
      | none => rw [hfind] at h; cases h
      | some j =>
        rw [hfind] at h
        cases h
        simpa using Nat.succ_lt_succ (ih hfind)

/-- Recursion core of `splitOnSubstr`; for a nonempty pattern every step consumes at
least one character, so fuel `s.length + 1` makes the fuel bound unreachable. -/
def splitOnSubstrGo (pat : Str) : Nat → Str → List Str
  | 0, s => [s]
  | fuel + 1, s =>
    match findSubIdx pat s with
    | none => [s]
    | some i => s.take i :: splitOnSubstrGo pat fuel (s.drop (i + pat.length))

/-- Rust `str::split(&str)` for a nonempty pattern: non-overlapping occurrences left to right. -/
def splitOnSubstr (pat : Str) (s : Str) : List Str := splitOnSubstrGo pat (s.length + 1) s

/-- Recursion core of `trimStartMatchesStr`; every strip of a nonempty leading
pattern consumes at least one character, so fuel `s.length` suffices. -/
def trimStartMatchesGo (pat : Str) : Nat → Str → Str
  | 0, s => s
  | fuel + 1, s =>
    if pat ≠ [] ∧ startsWithStr pat s = true then trimStartMatchesGo pat fuel (s.drop pat.length)
    else s

/-- Rust `str::trim_start_matches(&str)`: repeatedly strip the pattern while it leads. -/
def trimStartMatchesStr (pat : Str) (s : Str) : Str := trimStartMatchesGo pat s.length s

/-- Rust `str::trim_matches(char)`: strip every leading and trailing occurrence of `c`. -/
def trimMatchesChar (c : Char) (s : Str) : Str :=
  ((s.dropWhile (fun x => decide (x = c))).reverse.dropWhile (fun x => decide (x = c))).reverse

theorem length_dropWhile_le' (p : Char → Bool) (l : Str) :
    (l.dropWhile p).length ≤ l.length := by
  induction l with
  | nil => simp
  | cons x xs ih =>
    simp only [List.dropWhile]
    cases p x <;> simp <;> omega

/-- Recursion core of `splitWhitespace`; every emitted token consumes at least one
character, so fuel `s.length` suffices (exhausted fuel only ever meets an
all-whitespace remainder, for which the empty result is already correct). -/
def splitWhitespaceGo : Nat → Str → List Str
  | 0, _ => []
  | fuel + 1, s =>
    match s.dropWhile Char.isWhitespace with
    | [] => []
    | c :: cs =>
      (c :: cs.takeWhile (fun x => !x.isWhitespace)) ::
        splitWhitespaceGo fuel (cs.dropWhile (fun x => !x.isWhitespace))

/-- Rust `str::split_whitespace`: maximal nonempty runs of non-whitespace characters. -/
def splitWhitespace (s : Str) : List Str := splitWhitespaceGo s.length s

/-- Digit-string value: all characters decimal digits and at least one of them. -/
def digitsVal (s : Str) : Option Nat :=
  if !s.isEmpty && s.all Char.isDigit then
    some (s.foldl (fun a c => a * 10 + (c.toNat - 48)) 0)
  else none

/-- Rust `str::parse::<i64>()`: optional sign, decimal digits, 64-bit signed range check. -/
def parseI64 (s : Str) : Option Int :=
  match s with
  | '+' :: rest =>
    (digitsVal rest).bind (fun n => if n ≤ 9223372036854775807 then some (Int.ofNat n) else none)
  | '-' :: rest =>
    (digitsVal rest).bind (fun n => if n ≤ 9223372036854775808 then some (-(Int.ofNat n)) else none)
  | _ =>
    (digitsVal s).bind (fun n => if n ≤ 9223372036854775807 then some (Int.ofNat n) else none)

/-- Rust `i64::to_string`. -/
def intToStr (i : Int) : Str := (toString i).data

/-- JSON-like values as produced by the extension via the serde json macro. -/
inductive JVal where
  | str : Str → JVal
  | int : Int → JVal
  | bool : Bool → JVal
  | obj : List (Str × JVal) → JVal
  | arr : List JVal → JVal
deriving Repr

/-- Association-list lookup of a field by key. -/
def lookupField : List (Str × JVal) → Str → Option JVal
  | [], _ => none
  | (k', v) :: rest, k => if k' = k then some v else lookupField rest k

/-- Map insertion: replace the value of an existing key, otherwise append. -/
def insertField : List (Str × JVal) → Str → JVal → List (Str × JVal)
  | [], k, v => [(k, v)]
  | (k', v') :: rest, k, v =>
    if k' = k then (k', v) :: rest else (k', v') :: insertField rest k v

/-- Field lookup inside an object value. -/
def JVal.getField : JVal → Str → Option JVal
  | .obj fs, k => lookupField fs k
  | _, _ => none

/-- Captured outcome of a completed VBoxManage process. -/
structure CmdOutput where
  exitOk : Bool
  stdout : Str
  stderr : Str

/-- The external VBoxManage tool as a black box: argument vector to spawn
failure (`error`) or a completed process outcome (`ok`). -/
def Oracle := List Str → Except Str CmdOutput

/-- Embedding of `VirtualBoxExtension::run_vboxmanage`. -/
def run_vboxmanage (o : Oracle) (args : List Str) : Except Str Str :=
  match o args with
  | .error e => .error ("Failed to execute VBoxManage command: ".data ++ e)
  | .ok out =>
    if out.exitOk then .ok out.stdout
    else .error ("VBoxManage command failed: ".data ++ out.stderr)

abbrev ActionResult := Except Str JVal

/-! ### Argument vectors issued by the individual operations -/

def versionArgs : List Str := ["--version".data]

def listVmsArgs : List Str := ["list".data, "vms".data]

def createvmArgs (worker_name os_type : Str) : List Str :=
  ["createvm".data, "--name".data, worker_name, "--ostype".data, os_type, "--register".data]

def modifyvmResourceArgs (worker_name : Str) (memory_mb cpu_count : Int) : List Str :=
  ["modifyvm".data, worker_name, "--memory".data, intToStr memory_mb,
   "--cpus".data, intToStr cpu_count]

def modifyvmNicArgs (worker_name : Str) : List Str :=
  ["modifyvm".data, worker_name, "--nic1".data, "nat".data]

def unregistervmArgs (worker_name : Str) : List Str :=
  ["unregistervm".data, worker_name, "--delete".data]

def showvminfoArgs (worker_name : Str) : List Str :=
  ["showvminfo".data, worker_name, "--machinereadable".data]

def startvmArgs (worker_name : Str) : List Str :=
  ["startvm".data, worker_name, "--type".data, "headless".data]

def listHddsArgs : List Str := ["list".data, "hdds".data]

def showmediuminfoArgs (disk_path : Str) : List Str :=
  ["showmediuminfo".data, "disk".data, disk_path]

def createmediumArgs (disk_path : Str) (size_mb : Int) : List Str :=
  ["createmedium".data, "disk".data, "--filename".data, disk_path,
   "--size".data, intToStr size_mb, "--format".data, "VDI".data]

def closemediumArgs (disk_path : Str) : List Str :=
  ["closemedium".data, "disk".data, disk_path, "--delete".data]

def storagectlArgs (worker_name controller_name : Str) : List Str :=
  ["storagectl".data, worker_name, "--name".data, controller_name, "--add".data, "sata".data,
   "--controller".data, "IntelAhci".data, "--portcount".data, "30".data]

def storageattachArgs (worker_name controller_name : Str) (port : Int) (disk_path : Str) :
    List Str :=
  ["storageattach".data, worker_name, "--storagectl".data, controller_name,
   "--port".data, intToStr port, "--device".data, "0".data,
   "--type".data, "dvddrive".data, "--medium".data, disk_path]

def storagedetachArgs (worker_name controller_name : Str) (port : Int) : List Str :=
  ["storageattach".data, worker_name, "--storagectl".data, controller_name,
   "--port".data, intToStr port, "--device".data, "0".data,
   "--type".data, "hdd".data, "--medium".data, "none".data]

def snapshotTakeArgs (worker_name snapshot_name : Str) : List Str :=
  ["snapshot".data, worker_name, "take".data, snapshot_name]

def snapshotDeleteArgs (worker_name snapshot_name : Str) : List Str :=
  ["snapshot".data, worker_name, "delete".data, snapshot_name]

def snapshotListArgs (worker_name : Str) : List Str :=
  ["snapshot".data, worker_name, "list".data, "--machinereadable".data]

def controlvmResetArgs (worker_name : Str) : List Str :=
  ["controlvm".data, worker_name, "reset".data]

def modifyvmNicIndexArgs (worker_name : Str) (network_index : Int) (network_type : Str) :
    List Str :=
  ["modifyvm".data, worker_name, "--nic".data ++ intToStr network_index, network_type]

def setextradataArgs (worker_name key value : Str) : List Str :=
  ["setextradata".data, worker_name, key, value]

def clonemediumArgs (source_volume_path target_volume_path : Str) : List Str :=
  ["clonemedium".data, "disk".data, source_volume_path, target_volume_path]

/-! ### The twenty operations of the extension -/

/-- Embedding of `VirtualBoxExtension::test_install`. -/
def test_install (o : Oracle) : ActionResult :=
  match run_vboxmanage o versionArgs with
  | .error e => .error e
  | .ok output =>
    .ok (JVal.obj [("success".data, .bool true), ("version".data, .str (trimStr output))])

/-- Per-line parser of the terse `"name" {uuid}` listing inside `list_workers`
(the loop body of `src/lib.rs` lines 86-113; a line producing no record is skipped). -/
def parseVmLine (line : Str) : Option JVal :=
  if trimStr line = [] then none
  else
    match findCharIdx '"' line, rfindCharIdx '"' line with
    | some first_quote, some last_quote =>
      if first_quote < last_quote then
        let name := sliceStr line (first_quote + 1) last_quote
        match findCharIdx '{' line, rfindCharIdx '}' line with
        | some open_brace, some close_brace =>
          if open_brace < close_brace then
            let uuid := sliceStr line (open_brace + 1) close_brace
            some (JVal.obj [("name".data, .str name), ("uuid".data, .str uuid),
                            ("id".data, .str uuid), ("state".data, .str "unknown".data)])
          else none
        | _, _ => none
      else none
    | _, _ => none

/-- Embedding of `VirtualBoxExtension::list_workers`. -/
def list_workers (o : Oracle) : ActionResult :=
  match run_vboxmanage o listVmsArgs with
  | .error e => .error e
  | .ok output =>
    .ok (JVal.obj [("workers".data, JVal.arr ((linesOf output).filterMap parseVmLine))])

/-- UUID extraction loop of `create_worker`: first line that contains `UUID` and splits
on a colon into at least two parts assigns and breaks; otherwise the uuid stays empty. -/
def extractCreateUuid : List Str → Str
  | [] => []
  | l :: ls =>
    if containsStr "UUID".data l then
      let parts := splitOnChar ':' l
      if parts.length ≥ 2 then trimStr (parts.getD 1 []) else extractCreateUuid ls
    else extractCreateUuid ls

/-- Embedding of `VirtualBoxExtension::create_worker`. -/
def create_worker (o : Oracle) (worker_name os_type : Str) (memory_mb cpu_count : Int) :
    ActionResult :=
  match run_vboxmanage o (createvmArgs worker_name os_type) with
  | .error e => .error e
  | .ok create_output =>
    let uuid := extractCreateUuid (linesOf create_output)
    match run_vboxmanage o (modifyvmResourceArgs worker_name memory_mb cpu_count) with
    | .error e => .error e
    | .ok _ =>
      match run_vboxmanage o (modifyvmNicArgs worker_name) with
      | .error e => .error e
      | .ok _ =>
        .ok (JVal.obj [("success".data, .bool true), ("uuid".data, .str uuid),
                       ("name".data, .str worker_name)])

/-- Embedding of `VirtualBoxExtension::delete_worker`. -/
def delete_worker (o : Oracle) (worker_name : Str) : ActionResult :=
  match run_vboxmanage o (unregistervmArgs worker_name) with
  | .error e => .error e
  | .ok _ => .ok (JVal.obj [("success".data, .bool true)])

/-- Key/value split of one machine-readable info line: split on `=`, at least two
parts, key trimmed, value trimmed then stripped of surrounding double quotes. -/
def lineKV (line : Str) : Option (Str × Str) :=
  let parts := splitOnChar '=' line
  if parts.length ≥ 2 then
    some (trimStr (parts.getD 0 []), trimMatchesChar '"' (trimStr (parts.getD 1 [])))
  else none

/-- One step of the `get_worker` property loop (`src/lib.rs` lines 191-245). -/
def vmStep (vm : List (Str × JVal)) (line : Str) : List (Str × JVal) :=
  match lineKV line with
  | none => vm
  | some (key, value) =>
    if key = "name".data then insertField vm "name".data (.str value)
    else if key = "UUID".data then insertField vm "id".data (.str value)
    else if key = "VMState".data then insertField vm "state".data (.str value)
    else if key = "memory".data then
      match parseI64 value with
      | some mem => insertField vm "memory_mb".data (.int mem)
      | none => vm
    else if key = "cpus".data then
      match parseI64 value with
      | some cpus => insertField vm "cpu_count".data (.int cpus)
      | none => vm
    else if key = "ostype".data then insertField vm "os_type".data (.str value)
    else if key = "firmware".data then insertField vm "firmware".data (.str value)
    else if key = "graphicscontroller".data then
      insertField vm "graphics_controller".data (.str value)
    else vm

/-- Embedding of `VirtualBoxExtension::get_worker`. -/
def get_worker (o : Oracle) (worker_name : Str) : ActionResult :=
  match run_vboxmanage o (showvminfoArgs worker_name) with
  | .error e => .error e
  | .ok output =>
    .ok (JVal.obj [("success".data, .bool true),
                   ("vm".data, .obj ((linesOf output).foldl vmStep []))])

/-- Embedding of `VirtualBoxExtension::has_worker`. -/
def has_worker (o : Oracle) (worker_name : Str) : ActionResult :=
  match run_vboxmanage o (showvminfoArgs worker_name) with
  | .ok _ => .ok (JVal.obj [("success".data, .bool true), ("exists".data, .bool true)])
  | .error _ => .ok (JVal.obj [("success".data, .bool true), ("exists".data, .bool false)])

/-- Embedding of `VirtualBoxExtension::start_worker`. -/
def start_worker (o : Oracle) (worker_name : Str) : ActionResult :=
  match run_vboxmanage o (startvmArgs worker_name) with
  | .error e => .error e
  | .ok _ =>
    .ok (JVal.obj [("success".data, .bool true), ("started".data, .str worker_name)])

/-- Field extracted from one line of a volume block, mirroring the prefix chain of
`get_volumes` (`src/lib.rs` lines 300-336); `none` when the line populates nothing. -/
def lineVolField (line : Str) : Option (Str × JVal) :=
  if startsWithStr "UUID:".data line then
    some ("id".data, .str (trimStr (trimStartMatchesStr "UUID:".data line)))
  else if startsWithStr "Location:".data line then
    some ("path".data, .str (trimStr (trimStartMatchesStr "Location:".data line)))
  else if startsWithStr "Capacity:".data line then
    let size_str := trimStr (trimStartMatchesStr "Capacity:".data line)
    let size_parts := splitWhitespace size_str
    if size_parts.length ≥ 2 && size_parts.getD 1 [] = "MBytes".data then
      match parseI64 (size_parts.getD 0 []) with
      | some size => some ("size_mb".data, .int size)
      | none => none
    else none
  else if startsWithStr "Format:".data line then
    some ("format".data, .str (trimStr (trimStartMatchesStr "Format:".data line)))
  else if startsWithStr "Type:".data line then
    some ("type".data, .str (trimStr (trimStartMatchesStr "Type:".data line)))
  else if startsWithStr "Parent UUID:".data line then
    some ("parent".data, .str (trimStr (trimStartMatchesStr "Parent UUID:".data line)))
  else if startsWithStr "State:".data line then
    some ("state".data, .str (trimStr (trimStartMatchesStr "State:".data line)))
  else none

/-- One step of the volume-block loop: apply the field extracted from the line, if any. -/
def volStep (volume : List (Str × JVal)) (line : Str) : List (Str × JVal) :=
  match lineVolField line with
  | some (k, v) => insertField volume k v
  | none => volume

/-- Record built from one blank-line-delimited block of `list hdds` output;
a blank block is skipped and a block with no recognized field is discarded. -/
def blockVolume (block : Str) : Option JVal :=
  if trimStr block = [] then none
  else
    match (linesOf block).foldl volStep [] with
    | [] => none
    | fields => some (JVal.obj fields)

/-- Embedding of `VirtualBoxExtension::get_volumes`. -/
def get_volumes (o : Oracle) : ActionResult :=
  match run_vboxmanage o listHddsArgs with
  | .error e => .error e
  | .ok output =>
    .ok (JVal.obj [("success".data, .bool true),
                   ("volumes".data,
                    JVal.arr ((splitOnSubstr "\n\n".data output).filterMap blockVolume))])

/-- Embedding of `VirtualBoxExtension::has_volume`. -/
def has_volume (o : Oracle) (disk_path : Str) : ActionResult :=
  match run_vboxmanage o (showmediuminfoArgs disk_path) with
  | .ok _ => .ok (JVal.obj [("success".data, .bool true), ("exists".data, .bool true)])
  | .error _ => .ok (JVal.obj [("success".data, .bool true), ("exists".data, .bool false)])

/-- One step of the `create_volume` output loop (`src/lib.rs` lines 383-395): a line
containing `UUID:` updates the uuid, otherwise one containing `Location:` updates the
path, each to the trimmed second colon-split part; no break, later lines win. -/
def cvStep (acc : Str × Str) (line : Str) : Str × Str :=
  if containsStr "UUID:".data line then
    let parts := splitOnChar ':' line
    if parts.length ≥ 2 then (trimStr (parts.getD 1 []), acc.2) else acc
  else if containsStr "Location:".data line then
    let parts := splitOnChar ':' line
    if parts.length ≥ 2 then (acc.1, trimStr (parts.getD 1 [])) else acc
  else acc

/-- Embedding of `VirtualBoxExtension::create_volume`. -/
def create_volume (o : Oracle) (disk_path : Str) (size_mb : Int) : ActionResult :=
  match run_vboxmanage o (createmediumArgs disk_path size_mb) with
  | .error e => .error e
  | .ok output =>
    let up := (linesOf output).foldl cvStep ([], [])
    .ok (JVal.obj [("success".data, .bool true), ("uuid".data, .str up.1),
                   ("path".data, .str up.2)])

/-- Embedding of `VirtualBoxExtension::delete_volume`. -/
def delete_volume (o : Oracle) (disk_path : Str) : ActionResult :=
  match run_vboxmanage o (closemediumArgs disk_path) with
  | .error e => .error e
  | .ok _ => .ok (JVal.obj [("success".data, .bool true)])

/-- Embedding of `VirtualBoxExtension::attach_volume`, paired with the trace of the
argument vectors it issues, in order. The storage-controller creation result is bound
and discarded (`let _ = ...` in the source); only the attach command decides the result. -/
def attach_volume_run (o : Oracle) (worker_name controller_name : Str) (port : Int)
    (disk_path : Str) : ActionResult × List (List Str) :=
  let _ := run_vboxmanage o (storagectlArgs worker_name controller_name)
  match run_vboxmanage o (storageattachArgs worker_name controller_name port disk_path) with
  | .error e =>
    (.error e,
     [storagectlArgs worker_name controller_name,
      storageattachArgs worker_name controller_name port disk_path])
  | .ok _ =>
    (.ok (JVal.obj [("success".data, .bool true)]),
     [storagectlArgs worker_name controller_name,
      storageattachArgs worker_name controller_name port disk_path])

/-- Result component of `attach_volume`. -/
def attach_volume (o : Oracle) (worker_name controller_name : Str) (port : Int)
    (disk_path : Str) : ActionResult :=
  (attach_volume_run o worker_name controller_name port disk_path).1

/-- Embedding of `VirtualBoxExtension::detach_volume`. -/
def detach_volume (o : Oracle) (worker_name controller_name : Str) (port : Int) :
    ActionResult :=
  match run_vboxmanage o (storagedetachArgs worker_name controller_name port) with
  | .error e => .error e
  | .ok _ => .ok (JVal.obj [("success".data, .bool true)])

/-- UUID extraction loop of `create_snapshot`: first line containing `taken as`
splits on that pattern and the trimmed second part is the uuid (break). -/
def extractTakenAs : List Str → Str
  | [] => []
  | l :: ls =>
    if containsStr "taken as".data l then
      let parts := splitOnSubstr "taken as".data l
      if parts.length ≥ 2 then trimStr (parts.getD 1 []) else extractTakenAs ls
    else extractTakenAs ls

/-- Embedding of `VirtualBoxExtension::create_snapshot`. -/
def create_snapshot (o : Oracle) (worker_name snapshot_name : Str) : ActionResult :=
  match run_vboxmanage o (snapshotTakeArgs worker_name snapshot_name) with
  | .error e => .error e
  | .ok output =>
    .ok (JVal.obj [("success".data, .bool true),
                   ("uuid".data, .str (extractTakenAs (linesOf output)))])

/-- Embedding of `VirtualBoxExtension::delete_snapshot`. -/
def delete_snapshot (o : Oracle) (worker_name snapshot_name : Str) : ActionResult :=
  match run_vboxmanage o (snapshotDeleteArgs worker_name snapshot_name) with
  | .error e => .error e
  | .ok _ => .ok (JVal.obj [("success".data, .bool true)])

/-- The search loop of `has_snapshot`: true as soon as some line contains the name. -/
def snapshotExists (snapshot_name : Str) : List Str → Bool
  | [] => false
  | l :: ls => if containsStr snapshot_name l then true else snapshotExists snapshot_name ls

/-- Embedding of `VirtualBoxExtension::has_snapshot`. Note the command failure is
propagated with the question-mark operator, unlike `has_worker` and `has_volume`. -/
def has_snapshot (o : Oracle) (worker_name snapshot_name : Str) : ActionResult :=
  match run_vboxmanage o (snapshotListArgs worker_name) with
  | .error e => .error e
  | .ok output =>
    .ok (JVal.obj [("success".data, .bool true),
                   ("exists".data, .bool (snapshotExists snapshot_name (linesOf output)))])

/-- Embedding of `VirtualBoxExtension::reboot_worker`. -/
def reboot_worker (o : Oracle) (worker_name : Str) : ActionResult :=
  match run_vboxmanage o (controlvmResetArgs worker_name) with
  | .error e => .error e
  | .ok _ => .ok (JVal.obj [("success".data, .bool true)])

/-- Embedding of `VirtualBoxExtension::configure_networks`. -/
def configure_networks (o : Oracle) (worker_name : Str) (network_index : Int)
    (network_type : Str) : ActionResult :=
  match run_vboxmanage o (modifyvmNicIndexArgs worker_name network_index network_type) with
  | .error e => .error e
  | .ok _ => .ok (JVal.obj [("success".data, .bool true)])

/-- Embedding of `VirtualBoxExtension::set_worker_metadata`. -/
def set_worker_metadata (o : Oracle) (worker_name key value : Str) : ActionResult :=
  match run_vboxmanage o (setextradataArgs worker_name key value) with
  | .error e => .error e
  | .ok _ => .ok (JVal.obj [("success".data, .bool true)])

/-- UUID extraction loop of `snapshot_volume`: first line containing `UUID:` that
splits on a colon into at least two parts gives the trimmed second part (break). -/
def extractSvUuid : List Str → Str
  | [] => []
  | l :: ls =>
    if containsStr "UUID:".data l then
      let parts := splitOnChar ':' l
      if parts.length ≥ 2 then trimStr (parts.getD 1 []) else extractSvUuid ls
    else extractSvUuid ls

/-- Embedding of `VirtualBoxExtension::snapshot_volume`. -/
def snapshot_volume (o : Oracle) (source_volume_path target_volume_path : Str) : ActionResult :=
  match run_vboxmanage o (clonemediumArgs source_volume_path target_volume_path) with
  | .error e => .error e
  | .ok output =>
    .ok (JVal.obj [("success".data, .bool true),
                   ("uuid".data, .str (extractSvUuid (linesOf output)))])

/-! ### Parameter validation and dispatch -/

/-- Caller-supplied parameter mapping (keys unique, untyped values). -/
abbrev ParamMap := List (Str × JVal)

/-- Modelled from the spec: `lib_cpi::validation::extract_string` is not under `src/`;
per section 4.2, a required string parameter must be present and textual, a missing
required parameter is a hard error naming the parameter, a wrong type is a type error. -/
def extract_string (params : ParamMap) (key : Str) : Except Str Str :=
  match lookupField params key with
  | some (JVal.str s) => .ok s
  | some _ => .error ("Parameter '".data ++ key ++ "' has the wrong type".data)
  | none => .error ("Missing required parameter: '".data ++ key ++ "'".data)

/-- Modelled from the spec: `lib_cpi::validation::extract_string_opt`; per section 4.2
a missing optional parameter yields absence, a present one must be textual. -/
def extract_string_opt (params : ParamMap) (key : Str) : Except Str (Option Str) :=
  match lookupField params key with
  | some (JVal.str s) => .ok (some s)
  | some _ => .error ("Parameter '".data ++ key ++ "' has the wrong type".data)
  | none => .ok none

/-- Modelled from the spec: `lib_cpi::validation::extract_int`; per section 4.2 an
integer parameter must be an exact 64-bit signed integer, fractional values rejected. -/
def extract_int (params : ParamMap) (key : Str) : Except Str Int :=
  match lookupField params key with
  | some (JVal.int i) => .ok i
  | some _ => .error ("Parameter '".data ++ key ++ "' has the wrong type".data)
  | none => .error ("Missing required parameter: '".data ++ key ++ "'".data)

/-- Modelled from the spec: `lib_cpi::validation::extract_int_opt`. -/
def extract_int_opt (params : ParamMap) (key : Str) : Except Str (Option Int) :=
  match lookupField params key with
  | some (JVal.int i) => .ok (some i)
  | some _ => .error ("Parameter '".data ++ key ++ "' has the wrong type".data)
  | none => .ok none

/-- Embedding of `CpiExtension::execute_action` for `VirtualBoxExtension`
(`src/lib.rs` lines 792-889): dispatch on the action name, validate and
default the parameters, run the operation. -/
def execute_action (o : Oracle) (action : Str) (params : ParamMap) : ActionResult :=
  if action = "test_install".data then test_install o
  else if action = "list_workers".data then list_workers o
  else if action = "create_worker".data then
    match extract_string params "worker_name".data with
    | .error e => .error e
    | .ok worker_name =>
      match extract_string_opt params "os_type".data with
      | .error e => .error e
      | .ok os_type? =>
        match extract_int_opt params "memory_mb".data with
        | .error e => .error e
        | .ok memory_mb? =>
          match extract_int_opt params "cpu_count".data with
          | .error e => .error e
          | .ok cpu_count? =>
            create_worker o worker_name (os_type?.getD "Ubuntu_64".data)
              (memory_mb?.getD 2048) (cpu_count?.getD 2)
  else if action = "delete_worker".data then
    match extract_string params "worker_name".data with
    | .error e => .error e
    | .ok worker_name => delete_worker o worker_name
  else if action = "get_worker".data then
    match extract_string params "worker_name".data with
    | .error e => .error e
    | .ok worker_name => get_worker o worker_name
  else if action = "has_worker".data then
    match extract_string params "worker_name".data with
    | .error e => .error e
    | .ok worker_name => has_worker o worker_name
  else if action = "start_worker".data then
    match extract_string params "worker_name".data with
    | .error e => .error e
    | .ok worker_name => start_worker o worker_name
  else if action = "get_volumes".data then get_volumes o
  else if action = "has_volume".data then
    match extract_string params "disk_path".data with
    | .error e => .error e
    | .ok disk_path => has_volume o disk_path
  else if action = "create_volume".data then
    match extract_string params "disk_path".data with
    | .error e => .error e
    | .ok disk_path =>
      match extract_int params "size_mb".data with
      | .error e => .error e
      | .ok size_mb => create_volume o disk_path size_mb
  else if action = "delete_volume".data then
    match extract_string params "disk_path".data with
    | .error e => .error e
    | .ok disk_path => delete_volume o disk_path
  else if action = "attach_volume".data then
    match extract_string params "worker_name".data with
    | .error e => .error e
    | .ok worker_name =>
      match extract_string_opt params "controller_name".data with
      | .error e => .error e
      | .ok controller_name? =>
        match extract_int params "port".data with
        | .error e => .error e
        | .ok port =>
          match extract_string params "disk_path".data with
          | .error e => .error e
          | .ok disk_path =>
            attach_volume o worker_name (controller_name?.getD "SATA Controller".data)
              port disk_path
  else if action = "detach_volume".data then
    match extract_string params "worker_name".data with
    | .error e => .error e
    | .ok worker_name =>
      match extract_string_opt params "controller_name".data with
      | .error e => .error e
      | .ok controller_name? =>
        match extract_int params "port".data with
        | .error e => .error e
        | .ok port =>
          detach_volume o worker_name (controller_name?.getD "SATA Controller".data) port
  else if action = "create_snapshot".data then
    match extract_string params "worker_name".data with
    | .error e => .error e
    | .ok worker_name =>
      match extract_string params "snapshot_name".data with
      | .error e => .error e
      | .ok snapshot_name => create_snapshot o worker_name snapshot_name
  else if action = "delete_snapshot".data then
    match extract_string params "worker_name".data with
    | .error e => .error e
    | .ok worker_name =>
      match extract_string params "snapshot_name".data with
      | .error e => .error e
      | .ok snapshot_name => delete_snapshot o worker_name snapshot_name
  else if action = "has_snapshot".data then
    match extract_string params "worker_name".data with
    | .error e => .error e
    | .ok worker_name =>
      match extract_string params "snapshot_name".data with
      | .error e => .error e
      | .ok snapshot_name => has_snapshot o worker_name snapshot_name
  else if action = "reboot_worker".data then
    match extract_string params "worker_name".data with
    | .error e => .error e
    | .ok worker_name => reboot_worker o worker_name
  else if action = "configure_networks".data then
    match extract_string params "worker_name".data with
    | .error e => .error e
    | .ok worker_name =>
      match extract_int params "network_index".data with
      | .error e => .error e
      | .ok network_index =>
        match extract_string_opt params "network_type".data with
        | .error e => .error e
        | .ok network_type? =>
          configure_networks o worker_name network_index (network_type?.getD "nat".data)
  else if action = "set_worker_metadata".data then
    match extract_string params "worker_name".data with
    | .error e => .error e
    | .ok worker_name =>
      match extract_string params "key".data with
      | .error e => .error e
      | .ok key =>
        match extract_string params "value".data with
        | .error e => .error e
        | .ok value => set_worker_metadata o worker_name key value
  else if action = "snapshot_volume".data then
    match extract_string params "source_volume_path".data with
    | .error e => .error e
    | .ok source_volume_path =>
      match extract_string params "target_volume_path".data with
      | .error e => .error e
      | .ok target_volume_path => snapshot_volume o source_volume_path target_volume_path
  else .error ("Action '".data ++ action ++ "' not found".data)

/-! ### Success-field lemmas for the individual operations -/

theorem test_install_success {o : Oracle} {r : JVal} (h : test_install o = .ok r) :
    r.getField "success".data = some (.bool true) := by
  unfold test_install at h
  dsimp only at h
  repeat' split at h
  all_goals first
    | exact Except.noConfusion h
    | (injection h with h; subst h; rfl)

theorem list_workers_no_success {o : Oracle} {r : JVal} (h : list_workers o = .ok r) :
    r.getField "success".data = none := by
  unfold list_workers at h
  dsimp only at h
  repeat' split at h
  all_goals first
    | exact Except.noConfusion h
    | (injection h with h; subst h; rfl)

theorem create_worker_success {o : Oracle} {wn ot : Str} {m c : Int} {r : JVal}
    (h : create_worker o wn ot m c = .ok r) : r.getField "success".data = some (.bool true) := by
  unfold create_worker at h
  dsimp only at h
  repeat' split at h
  all_goals first
    | exact Except.noConfusion h
    | (injection h with h; subst h; rfl)

theorem delete_worker_success {o : Oracle} {wn : Str} {r : JVal}
    (h : delete_worker o wn = .ok r) : r.getField "success".data = some (.bool true) := by
  unfold delete_worker at h
  dsimp only at h
  repeat' split at h
  all_goals first
    | exact Except.noConfusion h
    | (injection h with h; subst h; rfl)

theorem get_worker_success {o : Oracle} {wn : Str} {r : JVal}
    (h : get_worker o wn = .ok r) : r.getField "success".data = some (.bool true) := by
  unfold get_worker at h
  dsimp only at h
  repeat' split at h
  all_goals first
    | exact Except.noConfusion h
    | (injection h with h; subst h; rfl)

theorem has_worker_success {o : Oracle} {wn : Str} {r : JVal}
    (h : has_worker o wn = .ok r) : r.getField "success".data = some (.bool true) := by
  unfold has_worker at h
  dsimp only at h
  repeat' split at h
  all_goals first
    | exact Except.noConfusion h
    | (injection h with h; subst h; rfl)

theorem start_worker_success {o : Oracle} {wn : Str} {r : JVal}
    (h : start_worker o wn = .ok r) : r.getField "success".data = some (.bool true) := by
  unfold start_worker at h
  dsimp only at h
  repeat' split at h
  all_goals first
    | exact Except.noConfusion h
    | (injection h with h; subst h; rfl)

theorem get_volumes_success {o : Oracle} {r : JVal}
    (h : get_volumes o = .ok r) : r.getField "success".data = some (.bool true) := by
  unfold get_volumes at h
  dsimp only at h
  repeat' split at h
  all_goals first
    | exact Except.noConfusion h
    | (injection h with h; subst h; rfl)

theorem has_volume_success {o : Oracle} {dp : Str} {r : JVal}
    (h : has_volume o dp = .ok r) : r.getField "success".data = some (.bool true) := by
  unfold has_volume at h
  dsimp only at h
  repeat' split at h
  all_goals first
    | exact Except.noConfusion h
    | (injection h with h; subst h; rfl)

theorem create_volume_success {o : Oracle} {dp : Str} {s : Int} {r : JVal}
    (h : create_volume o dp s = .ok r) : r.getField "success".data = some (.bool true) := by
  unfold create_volume at h
  dsimp only at h
  repeat' split at h
  all_goals first
    | exact Except.noConfusion h
    | (injection h with h; subst h; rfl)

theorem delete_volume_success {o : Oracle} {dp : Str} {r : JVal}
    (h : delete_volume o dp = .ok r) : r.getField "success".data = some (.bool true) := by
  unfold delete_volume at h
  dsimp only at h
  repeat' split at h
  all_goals first
    | exact Except.noConfusion h
    | (injection h with h; subst h; rfl)

theorem attach_volume_success {o : Oracle} {wn cn : Str} {p : Int} {dp : Str} {r : JVal}
    (h : attach_volume o wn cn p dp = .ok r) : r.getField "success".data = some (.bool true) := by
  unfold attach_volume attach_volume_run at h
  dsimp only at h
  repeat' split at h
  all_goals first
    | exact Except.noConfusion h
    | (injection h with h; subst h; rfl)

theorem detach_volume_success {o : Oracle} {wn cn : Str} {p : Int} {r : JVal}
    (h : detach_volume o wn cn p = .ok r) : r.getField "success".data = some (.bool true) := by
  unfold detach_volume at h
  dsimp only at h
  repeat' split at h
  all_goals first
    | exact Except.noConfusion h
    | (injection h with h; subst h; rfl)

theorem create_snapshot_success {o : Oracle} {wn sn : Str} {r : JVal}
    (h : create_snapshot o wn sn = .ok r) : r.getField "success".data = some (.bool true) := by
  unfold create_snapshot at h
  dsimp only at h
  repeat' split at h
  all_goals first
    | exact Except.noConfusion h
    | (injection h with h; subst h; rfl)

theorem delete_snapshot_success {o : Oracle} {wn sn : Str} {r : JVal}
    (h : delete_snapshot o wn sn = .ok r) : r.getField "success".data = some (.bool true) := by
  unfold delete_snapshot at h
  dsimp only at h
  repeat' split at h
  all_goals first
    | exact Except.noConfusion h
    | (injection h with h; subst h; rfl)

theorem has_snapshot_success {o : Oracle} {wn sn : Str} {r : JVal}
    (h : has_snapshot o wn sn = .ok r) : r.getField "success".data = some (.bool true) := by
  unfold has_snapshot at h
  dsimp only at h
  repeat' split at h
  all_goals first
    | exact Except.noConfusion h
    | (injection h with h; subst h; rfl)

theorem reboot_worker_success {o : Oracle} {wn : Str} {r : JVal}
    (h : reboot_worker o wn = .ok r) : r.getField "success".data = some (.bool true) := by
  unfold reboot_worker at h
  dsimp only at h
  repeat' split at h
  all_goals first
    | exact Except.noConfusion h
    | (injection h with h; subst h; rfl)

theorem configure_networks_success {o : Oracle} {wn : Str} {ni : Int} {nt : Str} {r : JVal}
    (h : configure_networks o wn ni nt = .ok r) :
    r.getField "success".data = some (.bool true) := by
  unfold configure_networks at h
  dsimp only at h
  repeat' split at h
  all_goals first
    | exact Except.noConfusion h
    | (injection h with h; subst h; rfl)

theorem set_worker_metadata_success {o : Oracle} {wn k v : Str} {r : JVal}
    (h : set_worker_metadata o wn k v = .ok r) :
    r.getField "success".data = some (.bool true) := by
  unfold set_worker_metadata at h
  dsimp only at h
  repeat' split at h
  all_goals first
    | exact Except.noConfusion h
    | (injection h with h; subst h; rfl)

theorem snapshot_volume_success {o : Oracle} {sp tp : Str} {r : JVal}
    (h : snapshot_volume o sp tp = .ok r) : r.getField "success".data = some (.bool true) := by
  unfold snapshot_volume at h
  dsimp only at h
  repeat' split at h
  all_goals first
    | exact Except.noConfusion h
    | (injection h with h; subst h; rfl)

/-! ### Concrete oracles used by witnesses and counterexamples -/

/-- Oracle reporting a successful exit with the given stdout text for every command. -/
def constOracle (out : Str) : Oracle := fun _ => .ok ⟨true, out, []⟩

/-- Oracle reporting a successful exit with empty output for every command. -/
def oracleOk : Oracle := constOracle []

/-- Oracle reporting a nonzero exit with stderr `boom` for every command. -/
def oracleFail : Oracle := fun _ => .ok ⟨false, [], "boom".data⟩

/-- C1 (amended): whenever `execute_action` returns a successful result, the record
contains a field `success` with value `true` for every registry action except
`list_workers`, whose successful record carries no `success` field at all (the
source comments that the CPI wrapper is expected to add it). -/
theorem execute_action_ok_success (o : Oracle) (action : Str) (params : ParamMap) (r : JVal)
    (h : execute_action o action params = .ok r) :
    (action = "list_workers".data → r.getField "success".data = none) ∧
    (action ≠ "list_workers".data → r.getField "success".data = some (.bool true)) := by
  by_cases hla : action = "list_workers".data
  · subst hla
    unfold execute_action at h
    rw [if_neg (by decide), if_pos rfl] at h
    exact ⟨fun _ => list_workers_no_success h, fun hne => absurd rfl hne⟩
  · refine ⟨fun hl => absurd hl hla, fun _ => ?_⟩
    unfold execute_action at h
    by_cases h1 : action = "test_install".data
    · rw [if_pos h1] at h
      exact test_install_success h
    rw [if_neg h1] at h
    by_cases h2 : action = "list_workers".data
    · exact absurd h2 hla
    rw [if_neg h2] at h
    by_cases h3 : action = "create_worker".data
    · rw [if_pos h3] at h
      repeat' split at h
      all_goals first
        | exact Except.noConfusion h
        | exact create_worker_success h
    rw [if_neg h3] at h
    by_cases h4 : action = "delete_worker".data
    · rw [if_pos h4] at h
      repeat' split at h
      all_goals first
        | exact Except.noConfusion h
        | exact delete_worker_success h
    rw [if_neg h4] at h
    by_cases h5 : action = "get_worker".data
    · rw [if_pos h5] at h
      repeat' split at h
      all_goals first
        | exact Except.noConfusion h
        | exact get_worker_success h
    rw [if_neg h5] at h
    by_cases h6 : action = "has_worker".data
    · rw [if_pos h6] at h
      repeat' split at h
      all_goals first
        | exact Except.noConfusion h
        | exact has_worker_success h
    rw [if_neg h6] at h
    by_cases h7 : action = "start_worker".data
    · rw [if_pos h7] at h
      repeat' split at h
      all_goals first
        | exact Except.noConfusion h
        | exact start_worker_success h
    rw [if_neg h7] at h
    by_cases h8 : action = "get_volumes".data
    · rw [if_pos h8] at h
      exact get_volumes_success h
    rw [if_neg h8] at h
    by_cases h9 : action = "has_volume".data
    · rw [if_pos h9] at h
      repeat' split at h
      all_goals first
        | exact Except.noConfusion h
        | exact has_volume_success h
    rw [if_neg h9] at h
    by_cases h10 : action = "create_volume".data
    · rw [if_pos h10] at h
      repeat' split at h
      all_goals first
        | exact Except.noConfusion h
        | exact create_volume_success h
    rw [if_neg h10] at h
    by_cases h11 : action = "delete_volume".data
    · rw [if_pos h11] at h
      repeat' split at h
      all_goals first
        | exact Except.noConfusion h
        | exact delete_volume_success h
    rw [if_neg h11] at h
    by_cases h12 : action = "attach_volume".data
    · rw [if_pos h12] at h
      repeat' split at h
      all_goals first
        | exact Except.noConfusion h
        | exact attach_volume_success h
    rw [if_neg h12] at h
    by_cases h13 : action = "detach_volume".data
    · rw [if_pos h13] at h
      repeat' split at h
      all_goals first
        | exact Except.noConfusion h
        | exact detach_volume_success h
    rw [if_neg h13] at h
    by_cases h14 : action = "create_snapshot".data
    · rw [if_pos h14] at h
      repeat' split at h
      all_goals first
        | exact Except.noConfusion h
        | exact create_snapshot_success h
    rw [if_neg h14] at h
    by_cases h15 : action = "delete_snapshot".data
    · rw [if_pos h15] at h
      repeat' split at h
      all_goals first
        | exact Except.noConfusion h
        | exact delete_snapshot_success h
    rw [if_neg h15] at h
    by_cases h16 : action = "has_snapshot".data
    · rw [if_pos h16] at h
      repeat' split at h
      all_goals first
        | exact Except.noConfusion h
        | exact has_snapshot_success h
    rw [if_neg h16] at h
    by_cases h17 : action = "reboot_worker".data
    · rw [if_pos h17] at h
      repeat' split at h
      all_goals first
        | exact Except.noConfusion h
        | exact reboot_worker_success h
    rw [if_neg h17] at h
    by_cases h18 : action = "configure_networks".data
    · rw [if_pos h18] at h
      repeat' split at h
      all_goals first
        | exact Except.noConfusion h
        | exact configure_networks_success h
    rw [if_neg h18] at h
    by_cases h19 : action = "set_worker_metadata".data
    · rw [if_pos h19] at h
      repeat' split at h
      all_goals first
        | exact Except.noConfusion h
        | exact set_worker_metadata_success h
    rw [if_neg h19] at h
    by_cases h20 : action = "snapshot_volume".data
    · rw [if_pos h20] at h
      repeat' split at h
      all_goals first
        | exact Except.noConfusion h
        | exact snapshot_volume_success h
    rw [if_neg h20] at h
    exact Except.noConfusion h

/-- C1 witness: the amended success-field theorem applied to the concrete action
`test_install` under an oracle whose every command succeeds with empty output. -/
theorem execute_action_ok_success_witness :
    (JVal.obj [("success".data, JVal.bool true),
               ("version".data, JVal.str [])]).getField "success".data =
      some (JVal.bool true) :=
  (execute_action_ok_success oracleOk "test_install".data []
      (JVal.obj [("success".data, JVal.bool true), ("version".data, JVal.str [])]) rfl).2
    (by decide)

/-- C1 counterexample: dispatching `list_workers` through `execute_action` under an
all-succeeding oracle yields a successful result whose record has no `success` field,
refuting the claim that every successful result contains `success: true`. -/
theorem execute_action_list_workers_missing_success :
    execute_action oracleOk "list_workers".data [] =
      .ok (JVal.obj [("workers".data, JVal.arr [])]) ∧
    (JVal.obj [("workers".data, JVal.arr [])]).getField "success".data = none :=
  ⟨rfl, rfl⟩

/-- True iff a runner result is a success. -/
def runOk (r : Except Str Str) : Bool :=
  match r with
  | .ok _ => true
  | .error _ => false

/-- C2 (amended): the existence probes `has_worker` and `has_volume` always return a
successful `{success: true, exists: b}` record, with `b` reflecting whether the
query command succeeded — a failing query is converted into `exists: false`, never
propagated. `has_snapshot`, by contrast, propagates a failure of its listing command
as the action's error result. -/
theorem existence_probe_behavior (o : Oracle) (wn dp w s : Str) :
    has_worker o wn =
      .ok (JVal.obj [("success".data, .bool true),
                     ("exists".data, .bool (runOk (run_vboxmanage o (showvminfoArgs wn))))]) ∧
    has_volume o dp =
      .ok (JVal.obj [("success".data, .bool true),
                     ("exists".data, .bool (runOk (run_vboxmanage o (showmediuminfoArgs dp))))]) ∧
    (∀ e, run_vboxmanage o (snapshotListArgs w) = .error e → has_snapshot o w s = .error e) := by
  refine ⟨?_, ?_, ?_⟩
  · unfold has_worker
    cases hr : run_vboxmanage o (showvminfoArgs wn) <;> simp [runOk, hr]
  · unfold has_volume
    cases hr : run_vboxmanage o (showmediuminfoArgs dp) <;> simp [runOk, hr]
  · intro e he
    unfold has_snapshot
    rw [he]

/-- C2 witness: under the all-failing oracle, `has_worker` returns a successful
`exists: false` record while `has_snapshot` surfaces the command error. -/
theorem existence_probe_behavior_witness :
    has_worker oracleFail "vm1".data =
      .ok (JVal.obj [("success".data, JVal.bool true), ("exists".data, JVal.bool false)]) ∧
    has_snapshot oracleFail "vm1".data "snap".data =
      .error "VBoxManage command failed: boom".data :=
  ⟨(existence_probe_behavior oracleFail "vm1".data "d".data "vm1".data "snap".data).1,
   (existence_probe_behavior oracleFail "vm1".data "d".data "vm1".data "snap".data).2.2
     "VBoxManage command failed: boom".data rfl⟩

/-- C2 counterexample: when the snapshot listing command fails, `has_snapshot`
returns an error result rather than `{success: true, exists: false}`, refuting the
claim that all three existence probes never propagate the underlying error. -/
theorem has_snapshot_propagates_failure :
    has_snapshot oracleFail "vm1".data "snap".data =
      .error "VBoxManage command failed: boom".data := rfl

theorem splitOnChar_not_mem {c : Char} {a : Str} (ha : c ∉ a) : splitOnChar c a = [a] := by
  induction a with
  | nil => rfl
  | cons x xs ih =>
    have hx : ¬ x = c := fun e => ha (by simp [e])
    have ha' : c ∉ xs := fun hm => ha (List.mem_cons_of_mem _ hm)
    simp only [splitOnChar, if_neg hx, ih ha']

theorem splitOnChar_append_cons {c : Char} {a : Str} (t : Str) (ha : c ∉ a) :
    splitOnChar c (a ++ c :: t) = a :: splitOnChar c t := by
  induction a with
  | nil => simp [splitOnChar]
  | cons x xs ih =>
    have hx : ¬ x = c := fun e => ha (by simp [e])
    have ha' : c ∉ xs := fun hm => ha (List.mem_cons_of_mem _ hm)
    simp only [List.cons_append, splitOnChar, if_neg hx]
    rw [show xs.append (c :: t) = xs ++ c :: t from rfl, ih ha']

/-- C3 (amended): the identifier/path extraction used by `create_volume` and
`snapshot_volume` splits the matched line on colons and keeps only the trimmed text
between the first and the second colon. When the remainder after the first colon has
no further colon it is kept whole, but a value that itself contains a colon is
truncated at that next colon instead of being returned in full. -/
theorem colon_extraction_second_field (acc : Str × Str) (ls : List Str) (a b rest : Str)
    (ha : ':' ∉ a) (hb : ':' ∉ b) :
    (containsStr "UUID:".data (a ++ ':' :: b) = true →
       cvStep acc (a ++ ':' :: b) = (trimStr b, acc.2)) ∧
    (containsStr "UUID:".data (a ++ ':' :: (b ++ ':' :: rest)) = true →
       cvStep acc (a ++ ':' :: (b ++ ':' :: rest)) = (trimStr b, acc.2)) ∧
    (containsStr "UUID:".data (a ++ ':' :: (b ++ ':' :: rest)) = false →
       containsStr "Location:".data (a ++ ':' :: (b ++ ':' :: rest)) = true →
       cvStep acc (a ++ ':' :: (b ++ ':' :: rest)) = (acc.1, trimStr b)) ∧
    (containsStr "UUID:".data (a ++ ':' :: (b ++ ':' :: rest)) = true →
       extractSvUuid ((a ++ ':' :: (b ++ ':' :: rest)) :: ls) = trimStr b) := by
  have hone : splitOnChar ':' (a ++ ':' :: b) = [a, b] := by
    rw [splitOnChar_append_cons _ ha, splitOnChar_not_mem hb]
  have htwo : splitOnChar ':' (a ++ ':' :: (b ++ ':' :: rest)) =
      a :: b :: splitOnChar ':' rest := by
    rw [splitOnChar_append_cons _ ha, splitOnChar_append_cons _ hb]
  refine ⟨fun hc => ?_, fun hc => ?_, fun hcU hcL => ?_, fun hc => ?_⟩
  · simp [cvStep, hc, hone]
  · simp [cvStep, hc, htwo]
  · simp [cvStep, hcU, hcL, htwo]
  · simp [extractSvUuid, hc, htwo]

/-- C3 witness: the amended extraction theorem applied to the concrete line
`Location: C:/tmp/disk.vdi`, whose extracted path is the truncated `C`. -/
theorem colon_extraction_second_field_witness :
    cvStep ([], []) "Location: C:/tmp/disk.vdi".data = ([], "C".data) :=
  (colon_extraction_second_field ([], []) [] "Location".data " C".data "/tmp/disk.vdi".data
      (by decide) (by decide)).2.2.1 (by decide) (by decide)

/-- Oracle whose create-medium output reports a Windows-style path after `Location:`. -/
def oracleColonPath : Oracle := constOracle "UUID: abc-123\nLocation: C:/tmp/disk.vdi".data

/-- C3 counterexample: on output whose `Location:` value itself contains a colon,
`create_volume` returns the path truncated at that colon (`C`), while the claim's
rule (trimmed entire remainder after the first colon) would give the full value. -/
theorem create_volume_path_truncated_at_colon :
    create_volume oracleColonPath "/tmp/disk.vdi".data 10240 =
      .ok (JVal.obj [("success".data, JVal.bool true), ("uuid".data, JVal.str "abc-123".data),
                     ("path".data, JVal.str "C".data)]) ∧
    trimStr (("Location: C:/tmp/disk.vdi".data.dropWhile (fun x => !decide (x = ':'))).drop 1) =
      "C:/tmp/disk.vdi".data :=
  ⟨rfl, rfl⟩

/-- C4 (amended): the key/value split of the machine-readable VM info parser keeps,
as the value, only the trimmed and quote-stripped text between the first and the
second equals sign of the line. A value with no further equals sign is kept whole,
but a value that itself contains `=` is truncated at it, not mapped in full. -/
theorem lineKV_second_field (a b rest : Str) (ha : '=' ∉ a) (hb : '=' ∉ b) :
    lineKV (a ++ '=' :: b) = some (trimStr a, trimMatchesChar '"' (trimStr b)) ∧
    lineKV (a ++ '=' :: (b ++ '=' :: rest)) =
      some (trimStr a, trimMatchesChar '"' (trimStr b)) := by
  have hone : splitOnChar '=' (a ++ '=' :: b) = [a, b] := by
    rw [splitOnChar_append_cons _ ha, splitOnChar_not_mem hb]
  have htwo : splitOnChar '=' (a ++ '=' :: (b ++ '=' :: rest)) =
      a :: b :: splitOnChar '=' rest := by
    rw [splitOnChar_append_cons _ ha, splitOnChar_append_cons _ hb]
  constructor
  · simp [lineKV, hone]
  · simp [lineKV, htwo]

/-- C4 witness: the amended split theorem applied to the concrete line
`name="a=b"`, whose parsed value is the truncated `a`. -/
theorem lineKV_second_field_witness :
    lineKV "name=\"a=b\"".data = some ("name".data, "a".data) :=
  (lineKV_second_field "name".data "\"a".data "b\"".data (by decide) (by decide)).2

/-- Oracle whose VM info output has a quoted value containing an equals sign. -/
def oracleEqVal : Oracle := constOracle "name=\"a=b\"".data

/-- C4 counterexample: on the line `name="a=b"` the `get_worker` parser maps
`name` to the truncated value `a`, while the claim's rule (entire remainder after
the first `=`, quotes stripped) would give `a=b`. -/
theorem get_worker_value_truncated_at_equals :
    get_worker oracleEqVal "vm1".data =
      .ok (JVal.obj [("success".data, JVal.bool true),
                     ("vm".data, JVal.obj [("name".data, JVal.str "a".data)])]) ∧
    trimMatchesChar '"'
        (trimStr (("name=\"a=b\"".data.dropWhile (fun x => !decide (x = '='))).drop 1)) =
      "a=b".data :=
  ⟨rfl, rfl⟩

/-! ### Specification-side view of the terse VM listing parser -/

/-- Well-formedness of a terse listing line as the claim states it: the first double
quote strictly precedes the last one and the first opening brace strictly precedes
the last closing brace. -/
def wellFormedVm (line : Str) : Bool :=
  match findCharIdx '"' line, rfindCharIdx '"' line,
      findCharIdx '{' line, rfindCharIdx '}' line with
  | some fq, some lq, some ob, some cb => decide (fq < lq) && decide (ob < cb)
  | _, _, _, _ => false

/-- The quoted name of a listing line: text between its first and last double quote. -/
def quotedName (line : Str) : Str :=
  match findCharIdx '"' line, rfindCharIdx '"' line with
  | some fq, some lq => sliceStr line (fq + 1) lq
  | _, _ => []

/-- The braced uuid of a listing line: text between its first `{` and last `}`. -/
def bracedUuid (line : Str) : Str :=
  match findCharIdx '{' line, rfindCharIdx '}' line with
  | some ob, some cb => sliceStr line (ob + 1) cb
  | _, _ => []

/-- Worker record built from the quoted name and braced uuid of a listing line. -/
def vmRecordOf (line : Str) : JVal :=
  .obj [("name".data, .str (quotedName line)), ("uuid".data, .str (bracedUuid line)),
        ("id".data, .str (bracedUuid line)), ("state".data, .str "unknown".data)]

theorem trimStr_eq_nil_ws {s : Str} (h : trimStr s = []) :
    ∀ x ∈ s, x.isWhitespace = true := by
  intro x hx
  unfold trimStr trimEndStr at h
  have h1 : (s.dropWhile Char.isWhitespace).reverse.dropWhile Char.isWhitespace = [] := by
    simpa using congrArg List.reverse h
  have h2 : ∀ y ∈ (s.dropWhile Char.isWhitespace).reverse, y.isWhitespace = true := by
    intro y hy
    exact List.dropWhile_eq_nil_iff.mp h1 y hy
  have h3 : ∀ y ∈ s.dropWhile Char.isWhitespace, y.isWhitespace = true := by
    intro y hy
    exact h2 y (List.mem_reverse.mpr hy)
  have hsplit := List.takeWhile_append_dropWhile (p := Char.isWhitespace) (l := s)
  rw [← hsplit] at hx
  rcases List.mem_append.mp hx with hx | hx
  · exact List.mem_takeWhile_imp hx
  · exact h3 x hx

theorem findCharIdx_eq_none {c : Char} {s : Str} (h : c ∉ s) : findCharIdx c s = none := by
  induction s with
  | nil => rfl
  | cons x xs ih =>
    have hx : ¬ x = c := fun e => h (by simp [e])
    simp [findCharIdx, if_neg hx, ih (fun hm => h (List.mem_cons_of_mem _ hm))]

theorem parseVmLine_eq (line : Str) :
    parseVmLine line = if wellFormedVm line = true then some (vmRecordOf line) else none := by
  by_cases hb : trimStr line = []
  · have hq : findCharIdx '"' line = none := by
      refine findCharIdx_eq_none (fun hm => ?_)
      exact absurd (trimStr_eq_nil_ws hb _ hm) (by decide)
    simp [parseVmLine, hb, wellFormedVm, hq]
  · cases h1 : findCharIdx '"' line <;> cases h2 : rfindCharIdx '"' line <;>
      cases h3 : findCharIdx '{' line <;> cases h4 : rfindCharIdx '}' line <;>
      simp [parseVmLine, wellFormedVm, quotedName, bracedUuid, vmRecordOf,
        hb, h1, h2, h3, h4] <;>
      split_ifs <;> simp_all

theorem filterMap_if_eq_map_filter (f : Str → JVal) (p : Str → Bool) (g : Str → Option JVal)
    (hg : ∀ l, g l = if p l = true then some (f l) else none) (ls : List Str) :
    ls.filterMap g = (ls.filter p).map f := by
  induction ls with
  | nil => rfl
  | cons x xs ih =>
    by_cases hx : p x = true <;>
      simp [List.filterMap_cons, List.filter_cons, hg, hx, ih]

/-- C5: for any listing text, the `list_workers` parser returns exactly one record
per well-formed line (first quote before last quote, first brace before last brace),
in source-line order, built from that line's quoted name and braced uuid; blank and
malformed lines contribute no record and do not abort parsing. -/
theorem list_workers_parses_wellformed_lines (o : Oracle) (out : Str)
    (h : run_vboxmanage o listVmsArgs = .ok out) :
    list_workers o =
      .ok (JVal.obj [("workers".data,
        JVal.arr (((linesOf out).filter (fun l => wellFormedVm l)).map vmRecordOf))]) := by
  unfold list_workers
  rw [h]
  dsimp only
  rw [filterMap_if_eq_map_filter vmRecordOf (fun l => wellFormedVm l)
    parseVmLine parseVmLine_eq]

/-- Terse listing with two well-formed lines interleaved with malformed and blank ones. -/
def vmListText : Str :=
  "\"vm one\" {uuid1}\nnonsense line\n\n\"vm2\" {uuid2}\n\"vm3\" without braces".data

/-- Oracle returning the mixed terse listing for every command. -/
def oracleVmList : Oracle := constOracle vmListText

/-- C5 witness: the parser theorem applied to a concrete mixed listing, which
contains exactly two well-formed lines. -/
theorem list_workers_parses_wellformed_lines_witness :
    list_workers oracleVmList =
      .ok (JVal.obj [("workers".data,
        JVal.arr (((linesOf vmListText).filter (fun l => wellFormedVm l)).map vmRecordOf))]) ∧
    ((linesOf vmListText).filter (fun l => wellFormedVm l)).length = 2 :=
  ⟨list_workers_parses_wellformed_lines oracleVmList vmListText rfl, rfl⟩

/-! ### Specification-side view of the volume block parser -/

/-- A line starting with one of the seven labels recognized by the volume parser. -/
def isRecognizedLabel (line : Str) : Bool :=
  startsWithStr "UUID:".data line || startsWithStr "Location:".data line ||
  startsWithStr "Capacity:".data line || startsWithStr "Format:".data line ||
  startsWithStr "Type:".data line || startsWithStr "Parent UUID:".data line ||
  startsWithStr "State:".data line

theorem lineVolField_none_of_unrecognized {l : Str} (h : isRecognizedLabel l = false) :
    lineVolField l = none := by
  unfold isRecognizedLabel at h
  simp only [Bool.or_eq_false_iff] at h
  simp [lineVolField, h.1.1.1.1.1.1, h.1.1.1.1.1.2, h.1.1.1.1.2, h.1.1.1.2,
    h.1.1.2, h.1.2, h.2]

theorem foldl_volStep_id {ls : List Str} (h : ∀ l ∈ ls, isRecognizedLabel l = false)
    (acc : List (Str × JVal)) : ls.foldl volStep acc = acc := by
  induction ls generalizing acc with
  | nil => rfl
  | cons x xs ih =>
    have hx : volStep acc x = acc := by
      simp [volStep, lineVolField_none_of_unrecognized (h x (List.mem_cons_self x xs))]
    rw [List.foldl_cons, hx]
    exact ih (fun l hl => h l (List.mem_cons_of_mem _ hl)) acc

theorem foldl_volStep_single {ls : List Str} {l : Str}
    (h : ls.filter (fun x => isRecognizedLabel x) = [l]) :
    ls.foldl volStep [] =
      (match lineVolField l with
       | some kv => [kv]
       | none => []) := by
  induction ls with
  | nil => exact absurd h (by simp)
  | cons x xs ih =>
    cases hr : isRecognizedLabel x with
    | true =>
      rw [List.filter_cons_of_pos (by simpa using hr)] at h
      have hx : x = l := by
        have := congrArg (fun t => t.headI) h
        simpa using this
      have hxs : xs.filter (fun x => isRecognizedLabel x) = [] := by
        have := congrArg (fun t => t.tail) h
        simpa using this
      have hall : ∀ y ∈ xs, isRecognizedLabel y = false := by
        intro y hy
        by_contra hne
        have : y ∈ xs.filter (fun x => isRecognizedLabel x) :=
          List.mem_filter.mpr ⟨hy, by simpa using hne⟩
        rw [hxs] at this
        exact absurd this (by simp)
      subst hx
      rw [List.foldl_cons]
      cases hf : lineVolField x with
      | some kv =>
        have hv : volStep [] x = [kv] := by
          simp [volStep, hf, insertField]
        rw [hv, foldl_volStep_id hall]
      | none =>
        have hv : volStep [] x = [] := by
          simp [volStep, hf]
        rw [hv, foldl_volStep_id hall]
    | false =>
      rw [List.filter_cons_of_neg (by simp [hr])] at h
      have hx : volStep [] x = [] := by
        simp [volStep, lineVolField_none_of_unrecognized hr]
      rw [List.foldl_cons, hx]
      exact ih h

theorem mem_of_mem_splitOnChar {c : Char} {s p : Str} (hp : p ∈ splitOnChar c s) :
    ∀ x ∈ p, x ∈ s := by
  induction s generalizing p with
  | nil =>
    simp only [splitOnChar, List.mem_singleton] at hp
    subst hp
    simp
  | cons y ys ih =>
    by_cases hy : y = c
    · rw [show splitOnChar c (y :: ys) = [] :: splitOnChar c ys by
        simp [splitOnChar, hy]] at hp
      rcases List.mem_cons.mp hp with hp | hp
      · subst hp; simp
      · intro x hx
        exact List.mem_cons_of_mem _ (ih hp x hx)
    · cases hs : splitOnChar c ys with
      | nil =>
        rw [show splitOnChar c (y :: ys) = [[y]] by simp [splitOnChar, hy, hs]] at hp
        simp only [List.mem_singleton] at hp
        subst hp
        intro x hx
        simp only [List.mem_singleton] at hx
        subst hx
        simp
      | cons hHead hTail =>
        rw [show splitOnChar c (y :: ys) = (y :: hHead) :: hTail by
          simp [splitOnChar, hy, hs]] at hp
        rcases List.mem_cons.mp hp with hp | hp
        · subst hp
          intro x hx
          rcases List.mem_cons.mp hx with hx | hx
          · subst hx; simp
          · have hmem : hHead ∈ splitOnChar c ys := by
              rw [hs]; exact List.mem_cons_self _ _
            exact List.mem_cons_of_mem _ (ih hmem x hx)
        · intro x hx
          have hmem : p ∈ splitOnChar c ys := by
            rw [hs]; exact List.mem_cons_of_mem _ hp
          exact List.mem_cons_of_mem _ (ih hmem x hx)

theorem mem_of_mem_linesOf {s l : Str} (hl : l ∈ linesOf s) : ∀ x ∈ l, x ∈ s := by
  intro x hx
  unfold linesOf at hl
  dsimp only at hl
  obtain ⟨p, hp, hpl⟩ := List.mem_map.mp hl
  have hxp : x ∈ p := by
    rw [← hpl] at hx
    unfold stripCR at hx
    split at hx
    · exact List.dropLast_subset _ hx
    · exact hx
  have hp2 : p ∈ splitOnChar '\n' s := by
    by_cases hlast : (splitOnChar '\n' s).getLast? = some []
    · rw [if_pos hlast] at hp
      exact List.dropLast_subset _ hp
    · rw [if_neg hlast] at hp
      exact hp
  exact mem_of_mem_splitOnChar hp2 x hxp

theorem recognized_not_all_ws {l : Str} (h : isRecognizedLabel l = true)
    (hws : ∀ x ∈ l, x.isWhitespace = true) : False := by
  cases l with
  | nil => simp [isRecognizedLabel, startsWithStr] at h
  | cons x xs =>
    have hx := hws x (List.mem_cons_self x xs)
    simp only [isRecognizedLabel, startsWithStr, Bool.or_eq_true, Bool.and_eq_true,
      decide_eq_true_eq] at h
    rcases h with ((((((⟨rfl, _⟩ | ⟨rfl, _⟩) | ⟨rfl, _⟩) | ⟨rfl, _⟩) | ⟨rfl, _⟩) |
      ⟨rfl, _⟩) | ⟨rfl, _⟩) <;>
      exact absurd hx (by decide)

/-- C6 (amended): the `get_volumes` parser splits its output on blank lines and maps
each block through `blockVolume`. A block with no recognized label line yields no
record; a block with exactly one recognized label line yields exactly one record
with exactly the one field that line populates — provided the line's value parses
(a `Capacity:` line whose value is not `<integer> MBytes` populates nothing, and
such a block is discarded rather than emitted). -/
theorem get_volumes_block_field_counts (o : Oracle) (out block : Str)
    (h : run_vboxmanage o listHddsArgs = .ok out) :
    (get_volumes o = .ok (JVal.obj [("success".data, .bool true),
        ("volumes".data, JVal.arr ((splitOnSubstr "\n\n".data out).filterMap blockVolume))])) ∧
    ((linesOf block).filter (fun x => isRecognizedLabel x) = [] → blockVolume block = none) ∧
    (∀ l kv, (linesOf block).filter (fun x => isRecognizedLabel x) = [l] →
       lineVolField l = some kv → blockVolume block = some (JVal.obj [kv])) ∧
    (∀ l, (linesOf block).filter (fun x => isRecognizedLabel x) = [l] →
       lineVolField l = none → blockVolume block = none) := by
  refine ⟨?_, ?_, ?_, ?_⟩
  · unfold get_volumes
    rw [h]
  · intro hfilt
    unfold blockVolume
    by_cases htr : trimStr block = []
    · rw [if_pos htr]
    · rw [if_neg htr]
      have : (linesOf block).foldl volStep [] = [] := by
        refine foldl_volStep_id ?_ []
        intro l hl
        by_contra hne
        have hmem : l ∈ (linesOf block).filter (fun x => isRecognizedLabel x) :=
          List.mem_filter.mpr ⟨hl, by simpa using hne⟩
        rw [hfilt] at hmem
        exact absurd hmem (by simp)
      rw [this]
  · intro l kv hfilt hf
    have hrec : isRecognizedLabel l = true := by
      have hmem : l ∈ (linesOf block).filter (fun x => isRecognizedLabel x) := by
        rw [hfilt]; exact List.mem_cons_self _ _
      simpa using (List.mem_filter.mp hmem).2
    have hlin : l ∈ linesOf block := by
      have hmem : l ∈ (linesOf block).filter (fun x => isRecognizedLabel x) := by
        rw [hfilt]; exact List.mem_cons_self _ _
      exact List.mem_of_mem_filter hmem
    have htr : trimStr block ≠ [] := by
      intro he
      exact recognized_not_all_ws hrec
        (fun x hx => trimStr_eq_nil_ws he x (mem_of_mem_linesOf hlin x hx))
    unfold blockVolume
    rw [if_neg htr, foldl_volStep_single hfilt, hf]
  · intro l hfilt hf
    unfold blockVolume
    by_cases htr : trimStr block = []
    · rw [if_pos htr]
    · rw [if_neg htr, foldl_volStep_single hfilt, hf]

/-- C6 witness: a block whose single line is `UUID: abc` yields exactly one
one-field record, and a block with no recognized label yields none. -/
theorem get_volumes_block_field_counts_witness :
    blockVolume "UUID: abc".data = some (JVal.obj [("id".data, JVal.str "abc".data)]) ∧
    blockVolume "no labels here".data = none :=
  ⟨(get_volumes_block_field_counts oracleOk [] "UUID: abc".data rfl).2.2.1
      "UUID: abc".data ("id".data, JVal.str "abc".data) rfl rfl,
   (get_volumes_block_field_counts oracleOk [] "no labels here".data rfl).2.1 rfl⟩

/-- Oracle whose volume listing is a single block with one unparseable Capacity line. -/
def oracleCapBad : Oracle := constOracle "Capacity: xyz".data

/-- C6 counterexample: the block `Capacity: xyz` has exactly one recognized label
line, yet `get_volumes` emits zero records for it, refuting the claim that one
recognized label line always yields one one-field record. -/
theorem get_volumes_single_recognized_no_record :
    get_volumes oracleCapBad =
      .ok (JVal.obj [("success".data, JVal.bool true), ("volumes".data, JVal.arr [])]) ∧
    (linesOf "Capacity: xyz".data).filter (fun x => isRecognizedLabel x) =
      ["Capacity: xyz".data] :=
  ⟨rfl, rfl⟩

theorem startsWithStr_iff {p s : Str} :
    startsWithStr p s = true ↔ ∃ q, s = p ++ q := by
  induction p generalizing s with
  | nil => simpa [startsWithStr] using ⟨s, rfl⟩
  | cons a ps ih =>
    cases s with
    | nil => simp [startsWithStr]
    | cons x xs =>
      simp only [startsWithStr, Bool.and_eq_true, decide_eq_true_eq, ih, List.cons_append,
        List.cons.injEq]
      constructor
      · rintro ⟨rfl, q, rfl⟩
        exact ⟨q, rfl, rfl⟩
      · rintro ⟨q, rfl, rfl⟩
        exact ⟨rfl, q, rfl⟩

theorem containsStr_iff {pat s : Str} :
    containsStr pat s = true ↔ ∃ p q, s = p ++ pat ++ q := by
  induction s with
  | nil =>
    simp only [containsStr, List.isEmpty_iff]
    constructor
    · rintro rfl
      exact ⟨[], [], rfl⟩
    · rintro ⟨p, q, hpq⟩
      rcases List.append_eq_nil.mp hpq.symm with ⟨hp, hq⟩
      exact (List.append_eq_nil.mp hp).2
  | cons x xs ih =>
    simp only [containsStr, Bool.or_eq_true, ih, startsWithStr_iff]
    constructor
    · rintro (⟨q, hq⟩ | ⟨p, q, hq⟩)
      · exact ⟨[], q, by simpa using hq⟩
      · exact ⟨x :: p, q, by simp [hq]⟩
    · rintro ⟨p, q, hpq⟩
      cases p with
      | nil => exact Or.inl ⟨q, by simpa using hpq⟩
      | cons y ys =>
        rw [List.cons_append, List.cons_append] at hpq
        injection hpq with h1 h2
        exact Or.inr ⟨ys, q, by simpa using h2⟩

theorem snapshotExists_iff {sn : Str} {ls : List Str} :
    snapshotExists sn ls = true ↔ ∃ l ∈ ls, containsStr sn l = true := by
  induction ls with
  | nil => simp [snapshotExists]
  | cons x xs ih =>
    by_cases hx : containsStr sn x = true <;> simp [snapshotExists, hx, ih]

/-- C7: when the listing command succeeds, `has_snapshot` returns `success: true`
with `exists` true iff some line of the listing contains the target name as a
substring — a containment test, not an exact-name comparison. -/
theorem has_snapshot_substring_match (o : Oracle) (wn sn out : Str)
    (h : run_vboxmanage o (snapshotListArgs wn) = .ok out) :
    has_snapshot o wn sn =
      .ok (JVal.obj [("success".data, .bool true),
                     ("exists".data, .bool (snapshotExists sn (linesOf out)))]) ∧
    (snapshotExists sn (linesOf out) = true ↔
      ∃ l ∈ linesOf out, ∃ p q, l = p ++ sn ++ q) := by
  constructor
  · unfold has_snapshot
    rw [h]
  · rw [snapshotExists_iff]
    constructor
    · rintro ⟨l, hl, hc⟩
      exact ⟨l, hl, containsStr_iff.mp hc⟩
    · rintro ⟨l, hl, hpq⟩
      exact ⟨l, hl, containsStr_iff.mpr hpq⟩

/-- Machine-readable snapshot listing whose only snapshot is named base-v2. -/
def snapListText : Str := "SnapshotName=\"base-v2\"\nSnapshotUUID=\"xyz\"".data

/-- Oracle returning the base-v2 snapshot listing for every command. -/
def oracleSnapList : Oracle := constOracle snapListText

/-- C7 witness: querying for `base` against a listing whose only snapshot is
`base-v2` reports `exists: true`, the documented substring-match behavior. -/
theorem has_snapshot_substring_match_witness :
    has_snapshot oracleSnapList "vm1".data "base".data =
      .ok (JVal.obj [("success".data, JVal.bool true), ("exists".data, JVal.bool true)]) :=
  (has_snapshot_substring_match oracleSnapList "vm1".data "base".data snapListText rfl).1

/-- C8: `attach_volume` always issues the storage-controller-creation command first
and the storage-attach command second (the returned trace lists them in that order),
and its result is exactly the attach command's result mapped to a success record —
the controller-creation outcome is discarded, the attach failure is propagated. -/
theorem attach_volume_two_commands (o : Oracle) (wn cn : Str) (p : Int) (dp : Str) :
    attach_volume_run o wn cn p dp =
      ((run_vboxmanage o (storageattachArgs wn cn p dp)).map
         (fun _ => JVal.obj [("success".data, .bool true)]),
       [storagectlArgs wn cn, storageattachArgs wn cn p dp]) := by
  unfold attach_volume_run
  cases hr : run_vboxmanage o (storageattachArgs wn cn p dp) <;> simp [Except.map, hr]

/-- C9: a machine-readable info line whose key is `memory` or `cpus` but whose value
fails 64-bit integer parsing contributes nothing: `get_worker` still succeeds and
returns exactly the record parsed from all the other lines. -/
theorem get_worker_drops_bad_int (o : Oracle) (wn out : Str) (pre suf : List Str)
    (line k v : Str)
    (h : run_vboxmanage o (showvminfoArgs wn) = .ok out)
    (hlines : linesOf out = pre ++ line :: suf)
    (hkv : lineKV line = some (k, v))
    (hk : k = "memory".data ∨ k = "cpus".data)
    (hv : parseI64 v = none) :
    get_worker o wn =
      .ok (JVal.obj [("success".data, .bool true),
                     ("vm".data, .obj ((pre ++ suf).foldl vmStep []))]) := by
  have hstep : ∀ acc, vmStep acc line = acc := by
    intro acc
    rcases hk with rfl | rfl <;> simp [vmStep, hkv, hv]
  unfold get_worker
  rw [h]
  dsimp only
  rw [hlines, List.foldl_append, List.foldl_cons, hstep, ← List.foldl_append]

/-- Machine-readable VM info with a non-numeric memory value between valid lines. -/
def vmInfoText : Str := "name=\"vm1\"\nmemory=abc\ncpus=2".data

/-- Oracle returning the VM info with the bad memory line for every command. -/
def oracleVmInfo : Oracle := constOracle vmInfoText

/-- C9 witness: on concrete info whose `memory` value is `abc`, the memory field is
omitted while `name` and `cpus` are still populated. -/
theorem get_worker_drops_bad_int_witness :
    get_worker oracleVmInfo "vm1".data =
      .ok (JVal.obj [("success".data, JVal.bool true),
        ("vm".data,
         JVal.obj (["name=\"vm1\"".data, "cpus=2".data].foldl vmStep []))]) ∧
    (["name=\"vm1\"".data, "cpus=2".data].foldl vmStep []) =
      [("name".data, JVal.str "vm1".data), ("cpu_count".data, JVal.int 2)] :=
  ⟨get_worker_drops_bad_int oracleVmInfo "vm1".data vmInfoText ["name=\"vm1\"".data]
      ["cpus=2".data] "memory=abc".data "memory".data "abc".data rfl rfl rfl
      (Or.inl rfl) rfl,
   rfl⟩

theorem extractCreateUuid_nil {ls : List Str}
    (h : ∀ l ∈ ls, ¬(containsStr "UUID".data l = true ∧ (splitOnChar ':' l).length ≥ 2)) :
    extractCreateUuid ls = [] := by
  induction ls with
  | nil => rfl
  | cons x xs ih =>
    have hx := h x (List.mem_cons_self x xs)
    unfold extractCreateUuid
    by_cases hc : containsStr "UUID".data x = true
    · rw [if_pos hc, if_neg (fun hl => hx ⟨hc, hl⟩)]
      exact ih (fun l hl => h l (List.mem_cons_of_mem _ hl))
    · rw [if_neg hc]
      exact ih (fun l hl => h l (List.mem_cons_of_mem _ hl))

theorem extractTakenAs_nil {ls : List Str}
    (h : ∀ l ∈ ls, containsStr "taken as".data l = false) :
    extractTakenAs ls = [] := by
  induction ls with
  | nil => rfl
  | cons x xs ih =>
    unfold extractTakenAs
    rw [if_neg (by simp [h x (List.mem_cons_self x xs)])]
    exact ih (fun l hl => h l (List.mem_cons_of_mem _ hl))

theorem extractSvUuid_nil {ls : List Str}
    (h : ∀ l ∈ ls, containsStr "UUID:".data l = false) :
    extractSvUuid ls = [] := by
  induction ls with
  | nil => rfl
  | cons x xs ih =>
    unfold extractSvUuid
    rw [if_neg (by simp [h x (List.mem_cons_self x xs)])]
    exact ih (fun l hl => h l (List.mem_cons_of_mem _ hl))

/-- C10: when every issued command succeeds but the tool output has no line matching
the identifier pattern (`UUID` with a colon-separated value for `create_worker`,
`taken as` for `create_snapshot`, `UUID:` for `snapshot_volume`), each of these
actions still returns a success record whose `uuid` field is the empty string. -/
theorem missing_identifier_empty_uuid (o : Oracle) (wn ot sn sp tp : Str) (m c : Int) :
    (∀ out m1 m2,
       run_vboxmanage o (createvmArgs wn ot) = .ok out →
       (∀ l ∈ linesOf out,
          ¬(containsStr "UUID".data l = true ∧ (splitOnChar ':' l).length ≥ 2)) →
       run_vboxmanage o (modifyvmResourceArgs wn m c) = .ok m1 →
       run_vboxmanage o (modifyvmNicArgs wn) = .ok m2 →
       create_worker o wn ot m c =
         .ok (JVal.obj [("success".data, .bool true), ("uuid".data, .str []),
                        ("name".data, .str wn)])) ∧
    (∀ out, run_vboxmanage o (snapshotTakeArgs wn sn) = .ok out →
       (∀ l ∈ linesOf out, containsStr "taken as".data l = false) →
       create_snapshot o wn sn =
         .ok (JVal.obj [("success".data, .bool true), ("uuid".data, .str [])])) ∧
    (∀ out, run_vboxmanage o (clonemediumArgs sp tp) = .ok out →
       (∀ l ∈ linesOf out, containsStr "UUID:".data l = false) →
       snapshot_volume o sp tp =
         .ok (JVal.obj [("success".data, .bool true), ("uuid".data, .str [])])) := by
  refine ⟨?_, ?_, ?_⟩
  · intro out m1 m2 hrun hno h1 h2
    simp only [create_worker, hrun, h1, h2, extractCreateUuid_nil hno]
  · intro out hrun hno
    simp only [create_snapshot, hrun, extractTakenAs_nil hno]
  · intro out hrun hno
    simp only [snapshot_volume, hrun, extractSvUuid_nil hno]

/-- C10 witness: under the all-succeeding empty-output oracle, all three actions
return success with an empty uuid. -/
theorem missing_identifier_empty_uuid_witness :
    create_worker oracleOk "w1".data "Ubuntu_64".data 2048 2 =
      .ok (JVal.obj [("success".data, JVal.bool true), ("uuid".data, JVal.str []),
                     ("name".data, JVal.str "w1".data)]) ∧
    create_snapshot oracleOk "w1".data "s1".data =
      .ok (JVal.obj [("success".data, JVal.bool true), ("uuid".data, JVal.str [])]) ∧
    snapshot_volume oracleOk "a.vdi".data "b.vdi".data =
      .ok (JVal.obj [("success".data, JVal.bool true), ("uuid".data, JVal.str [])]) :=
  ⟨(missing_identifier_empty_uuid oracleOk "w1".data "Ubuntu_64".data "s1".data "a.vdi".data
       "b.vdi".data 2048 2).1 [] [] [] rfl (by decide) rfl rfl,
   (missing_identifier_empty_uuid oracleOk "w1".data "Ubuntu_64".data "s1".data "a.vdi".data
       "b.vdi".data 2048 2).2.1 [] rfl (by decide),
   (missing_identifier_empty_uuid oracleOk "w1".data "Ubuntu_64".data "s1".data "a.vdi".data
       "b.vdi".data 2048 2).2.2 [] rfl (by decide)⟩
